import Mathlib

/-!
Verification of the cache-coherent download orchestrator of the
go-package-info-cli repository (a Debian package-statistics CLI).

The Go sources are shallowly embedded:
* pure functions (`ProcessLine`, `SortMap`) become Lean functions over
  character lists and association lists (a Go `map[string]int` is modelled as
  an association list in some iteration order; Go randomizes iteration order,
  so theorems either quantify over the order or exhibit two admissible orders);
* the filesystem becomes an explicit association list from paths to file data,
  with `json.Unmarshal` outcomes modelled by a `FileData` tag (parses / does
  not parse);
* the HTTP client becomes an oracle giving the response of the HEAD request
  and of each GET attempt; `context.Context` cancellation becomes a Boolean
  oracle consulted at each `ctx.Err()` / `ctx.Done()` check site, indexed by
  a check counter threaded through the code;
* timestamps and durations are integers (Go nanosecond arithmetic never
  overflows for the values involved; `time.Since t = now - t`).
-/

/-- `PackageStats` from internal/cache/cache.go: package name and file count. -/
structure PackageStats where
  Name : String
  FileCount : Int
  deriving DecidableEq, Repr

/-- `CacheEntry` from internal/cache/cache.go: one persisted cache record.
`Timestamp` is an integer instant (Go `time.Time`). -/
structure CacheEntry where
  Architecture : String
  Stats : List PackageStats
  Timestamp : Int
  ETag : String
  LastModified : String
  URL : String
  Checksum : String
  deriving DecidableEq, Repr

/-! ## Line parser (ProcessLine) and aggregation finalizer (SortMap) -/

/-- The running name-to-count aggregation (`map[string]int` in Go), modelled as
an association list without duplicate keys; the list order is the insertion
order for entries created by `incr`. -/
abbrev AggMap := List (String × Int)

/-- The ASCII white-space predicate of Go `unicode.IsSpace` (the non-ASCII
space code points never occur in the claims and trimming them is irrelevant to
every theorem below). -/
def isSpaceChar (c : Char) : Bool :=
  c = ' ' || c = '\t' || c = '\n' || c = '\x0b' || c = '\x0c' || c = '\r'

/-- Left half of Go `strings.TrimSpace`. -/
def trimLeft (l : List Char) : List Char := l.dropWhile isSpaceChar

/-- Right half of Go `strings.TrimSpace`: drop trailing white space. -/
def trimRight : List Char → List Char
  | [] => []
  | c :: cs =>
    match trimRight cs with
    | [] => if isSpaceChar c then [] else [c]
    | r => c :: r

/-- Go `strings.TrimSpace` on the character list of the string. -/
def trimSpace (l : List Char) : List Char := trimRight (trimLeft l)

/-- Go `strings.HasPrefix(line, "FILE")` on the trimmed line. -/
def startsWithFILE : List Char → Bool
  | 'F' :: 'I' :: 'L' :: 'E' :: _ => true
  | _ => false

/-- Go `strings.Split(s, ",")` on character lists: `Split("", ",") = [""]`,
empty fields are kept. -/
def splitOnComma : List Char → List (List Char)
  | [] => [[]]
  | c :: cs =>
    if c = ',' then [] :: splitOnComma cs
    else
      match splitOnComma cs with
      | [] => [[c]]
      | g :: gs => (c :: g) :: gs

/-- Go `m[pkg]++` on the association-list model of `map[string]int`: bump the
existing entry, else append a fresh entry with count 1 (the zero value 0 plus
one). -/
def incr : AggMap → String → AggMap
  | [], k => [(k, 1)]
  | (k', v) :: rest, k =>
    if k' = k then (k', v + 1) :: rest else (k', v) :: incr rest k

/-- The `for _, pkg := range strings.Split(...)` loop body of `ProcessLine`:
trim each field, skip empties, increment the rest. -/
def addPkgs (m : AggMap) (pkgs : List (List Char)) : AggMap :=
  pkgs.foldl
    (fun acc pkg =>
      let p := trimSpace pkg
      if p.isEmpty then acc else incr acc (String.mk p)) m

/-- Core of `ProcessLine` (part_001 lines 16-31) on the character list of the
line: trim; drop empty lines and lines starting with "FILE"; find the first
space (`strings.Index(line, " ")`, -1 modelled by the dropWhile result being
empty); split the remainder on commas and count each non-empty package name. -/
def processLineChars (line : List Char) (m : AggMap) : AggMap :=
  let t := trimSpace line
  if t.isEmpty || startsWithFILE t then m
  else
    match t.dropWhile (fun c => !(c = ' ')) with
    | [] => m
    | _ :: after => addPkgs m (splitOnComma (trimSpace after))

/-- `ProcessLine` from part_001: parses a single Contents line into the running
counts map. -/
def ProcessLine (line : String) (m : AggMap) : AggMap :=
  processLineChars line.toList m

/-- The comparison used by `sort.Slice` in `SortMap`:
`stats[i].FileCount > stats[j].FileCount`, as the non-strict descending order
it sorts into. -/
def statsGE (a b : PackageStats) : Prop := b.FileCount ≤ a.FileCount

instance : DecidableRel statsGE :=
  fun a b => inferInstanceAs (Decidable (b.FileCount ≤ a.FileCount))

instance : IsTotal PackageStats statsGE :=
  ⟨fun a b => le_total b.FileCount a.FileCount⟩

instance : IsTrans PackageStats statsGE :=
  ⟨fun _ _ _ hab hbc => le_trans hbc hab⟩

/-- `SortMap` from part_001: range over the map in its (Go-randomized)
iteration order `m`, then `sort.Slice` descending by `FileCount`. `sort.Slice`
guarantees only that the result is a permutation sorted by the comparison (it
is documented as not stable); insertion sort is one admissible implementation. -/
def SortMap (m : List (String × Int)) : List PackageStats :=
  List.insertionSort statsGE (m.map fun kv => ⟨kv.1, kv.2⟩)

example : ProcessLine "usr/bin/file1 pkg1,pkg2,pkg3" [] =
    [("pkg1", 1), ("pkg2", 1), ("pkg3", 1)] := by decide

example : SortMap [("low", 5), ("high", 50)] = [⟨"high", 50⟩, ⟨"low", 5⟩] := by
  decide

example : SortMap [("b", 1), ("a", 1)] = [⟨"b", 1⟩, ⟨"a", 1⟩] := by decide

/-! ## Persistent cache store (internal/cache/cache.go) -/

/-- Content of one file as seen by `json.Unmarshal(data, &entry)`: either the
bytes parse as a `CacheEntry` or they do not (`raw` records the unparsable
bytes so that distinct corrupt files are distinct values). -/
inductive FileData
  | valid (entry : CacheEntry)
  | invalid (raw : String)
  deriving DecidableEq, Repr

/-- The filesystem: an association list from paths to file contents (first
binding wins, as established by `fsWrite`). -/
abbrev FS := List (String × FileData)

/-- `os.ReadFile`: the content at a path, or `none` when the file is absent. -/
def fsRead : FS → String → Option FileData
  | [], _ => none
  | (q, d) :: rest, p => if q = p then some d else fsRead rest p

/-- `os.Remove`: delete every binding of the path. -/
def fsRemove : FS → String → FS
  | [], _ => []
  | (q, d) :: rest, p =>
    if q = p then fsRemove rest p else (q, d) :: fsRemove rest p

/-- Create or truncate-and-write a file with the given content. -/
def fsWrite (fs : FS) (p : String) (d : FileData) : FS :=
  (p, d) :: fsRemove fs p

/-- The three error outcomes of `LoadCache`: the `os.ReadFile` error for a
missing file, the "corrupt cache removed" error, and the "cache expired"
error. -/
inductive CacheError
  | notFound
  | corrupt
  | expired
  deriving DecidableEq, Repr

/-- Go return value `(*CacheEntry, error)` of `LoadCache`. -/
inductive LoadResult
  | ok (entry : CacheEntry)
  | err (e : CacheError)
  deriving DecidableEq, Repr

/-- `LoadCache` (cache.go lines 44-58): read the file (absence is an error);
on a parse failure delete the file and fail with the corrupt error; fail with
the expired error when `time.Since(entry.Timestamp) > ttl` (i.e.
`now - Timestamp > ttl`), leaving the file untouched; otherwise return the
parsed entry.  The returned `FS` is the filesystem after the call. -/
def LoadCache (fs : FS) (file : String) (ttl now : Int) : FS × LoadResult :=
  match fsRead fs file with
  | none => (fs, .err .notFound)
  | some (.invalid _) => (fsRemove fs file, .err .corrupt)
  | some (.valid entry) =>
    if now - entry.Timestamp > ttl then (fs, .err .expired)
    else (fs, .ok entry)

/-- Failure injection for the file operations inside `SaveCache`:
`os.Create` failing, any of `Encode`/`Sync`/`Close` failing, and the number of
leading `os.Rename` attempts that fail. -/
structure IOEnv where
  createFails : Bool
  writeFails : Bool
  renameFailCount : Nat
  deriving DecidableEq, Repr

/-- Error outcomes of `SaveCache` (`json.Marshal` of a `[]PackageStats` cannot
fail in Go, so it has no constructor here). -/
inductive SaveError
  | create
  | write
  | rename
  deriving DecidableEq, Repr

/-- Stand-in for `json.Marshal(entry.Stats)` (external encoding/json library):
an injective rendering of the stats slice.  No claim inspects the digest
beyond it being a function of this serialization. -/
def marshalStats (stats : List PackageStats) : String :=
  String.intercalate ","
    (stats.map fun p => p.Name ++ ":" ++ toString p.FileCount)

/-- Stand-in for `fmt.Sprintf("%x", md5.Sum(data))` (external crypto/md5
library): an uninterpreted function of the marshalled bytes. -/
def md5Hex (data : String) : String := "md5:" ++ data

/-- The bounded `os.Rename` retry loop of `SaveCache` (cache.go lines 92-99):
five attempts; attempt `i` fails while `i < env.renameFailCount`.  On success
the temporary file is renamed over the target; on exhaustion the deferred
cleanup removes the temporary file and the rename error is returned. -/
def renameAttempts (env : IOEnv) (fsW : FS) (tmp file : String)
    (d : FileData) : Nat → Nat → FS × Option SaveError
  | 0, _ => (fsRemove fsW tmp, some .rename)
  | fuel + 1, i =>
    if i < env.renameFailCount then renameAttempts env fsW tmp file d fuel (i + 1)
    else (fsWrite (fsRemove fsW tmp) file d, none)

/-- `SaveCache` (cache.go lines 61-100): marshal `entry.Stats`, overwrite
`entry.Checksum` with the hex MD5 digest of that serialization (mutating the
caller's record), then create `file + ".tmp"`, encode the full mutated entry
into it, sync, close, and rename it over `file` with up to five attempts.  The
deferred cleanup removes the temporary file on every exit path after a
successful create.  Returns the filesystem after the call, the mutated entry,
and the error if any. -/
def SaveCache (env : IOEnv) (fs : FS) (file : String) (entry : CacheEntry) :
    FS × CacheEntry × Option SaveError :=
  let data := marshalStats entry.Stats
  let entry' := { entry with Checksum := md5Hex data }
  let tmp := file ++ ".tmp"
  if env.createFails then (fs, entry', some .create)
  else if env.writeFails then (fsRemove fs tmp, entry', some .write)
  else
    let fsW := fsWrite fs tmp (.valid entry')
    let ra := renameAttempts env fsW tmp file (.valid entry') 5 0
    (ra.1, entry', ra.2)

example :
    (SaveCache ⟨false, false, 0⟩ [] "p"
        ⟨"amd64", [⟨"pkg1", 10⟩], 3, "", "", "u", ""⟩).2.1.Checksum =
      "md5:pkg1:10" := by decide

example :
    (LoadCache [("p", .invalid "junk")] "p" 10 0).2 = .err .corrupt := by
  decide

/-! ## Conditional HTTP fetcher (internal/app/download.go) -/

/-- An HTTP response as consumed by `Download`: status, the two freshness
headers, and the body.  `lines` are the decompressed text lines produced by the
gzip reader and scanner on the 200 path; `gzipOk = false` models
`gzip.NewReader` failing on the body; `scanErr = true` models `scanner.Err()`
being non-nil after the scan. -/
structure Response where
  StatusCode : Nat
  ETag : String
  LastModified : String
  lines : List String
  gzipOk : Bool
  scanErr : Bool
  deriving DecidableEq, Repr

/-- Result of one `client.Do(req)`: a response, or a transport error with its
message (`err != nil`). -/
inductive HTTPResult
  | ok (resp : Response)
  | fail (msg : String)
  deriving DecidableEq, Repr

/-- The HTTP client as an oracle: the outcome of the HEAD request and of the
`i`-th GET attempt. -/
structure Client where
  headResp : HTTPResult
  getResp : Nat → HTTPResult

/-- A `context.Context` as a cancellation oracle: `ctx k = true` means the
`k`-th check site that consults the context (`ctx.Err()` or `ctx.Done()`)
observes it cancelled.  A check counter is threaded through the code; the
`DownloadTimeout` wrapper of the orchestrator manifests as cancellation
through this same oracle. -/
def Ctx := Nat → Bool

/-- Errors surfaced by the fetcher and orchestrator (the messages Go builds
with `fmt.Errorf`, and lock-acquisition failures). -/
inductive GoErr
  | transport (msg : String)
  | cancelled
  | notModifiedNoCache
  | notFound (url : String)
  | httpStatus (code : Nat) (url : String)
  | gzip
  | scan
  | lockTimeout
  | lockIO (msg : String)
  deriving DecidableEq, Repr

/-- Go return value `(*http.Response, error)` of `GetRequestWithRetry`. -/
inductive FetchRes
  | ok (resp : Response)
  | err (e : GoErr)
  deriving DecidableEq, Repr

/-- `MaxRetries` from the app package. -/
def MaxRetries : Nat := 3

/-- The retry loop of `GetRequestWithRetry` (download.go lines 130-164), with
`fuel = MaxRetries - i` structuring the `for i` loop.  Each iteration checks
`ctx.Err()` (one oracle consultation), issues the `i`-th GET (counted in
`gets`), returns the response on transport success (whatever its status), and
otherwise backs off — except after the last attempt — with a cancellable wait
(a second oracle consultation).  When the loop ends, the last transport error
is returned.  Result: `(outcome, GET requests issued, next check index)`. -/
def getRetryAux (client : Client) (ctx : Ctx) :
    Nat → Nat → Nat → Nat → String → FetchRes × Nat × Nat
  | _, 0, cidx, gets, lastErr => (.err (.transport lastErr), gets, cidx)
  | i, fuel + 1, cidx, gets, _ =>
    if ctx cidx then (.err .cancelled, gets, cidx + 1)
    else
      match client.getResp i with
      | .ok resp => (.ok resp, gets + 1, cidx + 1)
      | .fail msg =>
        if fuel = 0 then (.err (.transport msg), gets + 1, cidx + 1)
        else if ctx (cidx + 1) then (.err .cancelled, gets + 1, cidx + 2)
        else getRetryAux client ctx (i + 1) fuel (cidx + 2) (gets + 1) msg

/-- `GetRequestWithRetry` (download.go lines 130-164). -/
def GetRequestWithRetry (client : Client) (ctx : Ctx) (cidx : Nat) :
    FetchRes × Nat × Nat :=
  getRetryAux client ctx 0 MaxRetries cidx 0 ""

/-- The scan loop of `Download` (download.go lines 93-107): for each line,
when `lineCount % 1000 == 0` consult the cancellation oracle (returning
`none`, i.e. `ctx.Err()`, when cancelled), then feed the line to
`ProcessLine`. -/
def scanLines (ctx : Ctx) : List String → Nat → Nat → AggMap →
    Option (AggMap × Nat)
  | [], cidx, _, m => some (m, cidx)
  | line :: rest, cidx, lineCount, m =>
    if lineCount % 1000 = 0 then
      if ctx cidx then none
      else scanLines ctx rest (cidx + 1) (lineCount + 1) (ProcessLine line m)
    else scanLines ctx rest cidx (lineCount + 1) (ProcessLine line m)

/-- Go return value `([]PackageStats, string, string, error)` of `Download`,
collapsed to the success triple or the error. -/
inductive DlOut
  | ok (stats : List PackageStats) (etag lastMod : String)
  | err (e : GoErr)
  deriving DecidableEq, Repr

/-- The 200-status body path of `Download` (download.go lines 67-112): read
the headers, open the gzip reader (its failure is returned), scan the lines
into the counts map with periodic cancellation checks, surface `scanner.Err()`,
and finally return `SortMap(counts)` with the GET response's validators. -/
def processBody (ctx : Ctx) (resp : Response) (cidx gets : Nat) :
    DlOut × Nat :=
  if resp.gzipOk = false then (.err .gzip, gets)
  else
    match scanLines ctx resp.lines cidx 0 [] with
    | none => (.err .cancelled, gets)
    | some (m, _) =>
      if resp.scanErr then (.err .scan, gets)
      else (.ok (SortMap m) resp.ETag resp.LastModified, gets)

/-- Step 2 of `Download` (download.go lines 35-112): the GET with retries.  A
transport-level failure (including cancellation) falls back to the cached
entry when one exists and is otherwise returned.  A well-formed response goes
through the status switch: 200 proceeds to the body, 304 returns the cache (an
error without one), 404 and any other non-success status are terminal errors. -/
def downloadGet (client : Client) (ctx : Ctx) (url : String)
    (cached : Option CacheEntry) : DlOut × Nat :=
  match GetRequestWithRetry client ctx 0 with
  | (.err e, gets, _) =>
    match cached with
    | some c => (.ok c.Stats c.ETag c.LastModified, gets)
    | none => (.err e, gets)
  | (.ok resp, gets, cidx) =>
    if resp.StatusCode = 200 then processBody ctx resp cidx gets
    else if resp.StatusCode = 304 then
      match cached with
      | some c => (.ok c.Stats c.ETag c.LastModified, gets)
      | none => (.err .notModifiedNoCache, gets)
    else if resp.StatusCode = 404 then (.err (.notFound url), gets)
    else (.err (.httpStatus resp.StatusCode url), gets)

/-- `Download` (download.go lines 16-113).  Step 1 issues the HEAD probe
(`HeadRequest`, lines 115-127, whose outcome is the client oracle's
`headResp`); when it succeeds and the cache exists, a 304 status or headers
matching the cached `ETag`/`LastModified` short-circuit to the cached stats
with zero GET requests issued.  Every other case proceeds to the GET step.
The second component counts the GET requests issued. -/
def Download (client : Client) (ctx : Ctx) (url : String)
    (cached : Option CacheEntry) : DlOut × Nat :=
  match client.headResp with
  | .ok h =>
    match cached with
    | some c =>
      if h.StatusCode = 304 ∨ (h.ETag = c.ETag ∧ h.LastModified = c.LastModified)
      then (.ok c.Stats c.ETag c.LastModified, 0)
      else downloadGet client ctx url cached
    | none => downloadGet client ctx url cached
  | .fail _ => downloadGet client ctx url cached

/-! ## Cache orchestrator (AnalyzeWithCache) -/

/-- The fields of the app `Config` that the orchestrator consults (cache
directory and top count do not affect the modelled behavior; the download
timeout manifests through the cancellation oracle). -/
structure Config where
  Architecture : String
  CacheTTL : Int
  ForceRefresh : Bool
  ShortCacheWindow : Int

/-- `BaseURL` instantiated with the architecture
(`fmt.Sprintf(BaseURL, arch)`). -/
def contentsURL (arch : String) : String :=
  "http://ftp.uk.debian.org/debian/dists/stable/main/Contents-" ++ arch ++ ".gz"

/-- The cache file path `filepath.Join(cacheDir, "contents-<arch>.json")`
(the directory component is constant across one invocation and elided). -/
def cacheFilePath (arch : String) : String :=
  "contents-" ++ arch ++ ".json"

/-- The environment of one `AnalyzeWithCache` invocation: the outcome of lock
acquisition (`AcquireLockWithContext` over the external flock library),
the filesystem, the clock, the HTTP client, the cancellation oracle, and the
failure injection for `SaveCache`. -/
structure Env where
  lockResult : Option GoErr
  fs : FS
  now : Int
  client : Client
  ctx : Ctx
  ioEnv : IOEnv

/-- Go return value `([]PackageStats, error)` of `AnalyzeWithCache`. -/
inductive AnalyzeOut
  | ok (stats : List PackageStats)
  | err (e : GoErr)
  deriving DecidableEq, Repr

/-- Step 3 of `AnalyzeWithCache`: unless `ForceRefresh` is set, load the
existing cache, discarding the error (`cached, _ = cache.LoadCache(...)`); the
load's filesystem effect (corrupt-file deletion) persists. -/
def loadCached (env : Env) (cfg : Config) : FS × Option CacheEntry :=
  if cfg.ForceRefresh then (env.fs, none)
  else
    match LoadCache env.fs (cacheFilePath cfg.Architecture) cfg.CacheTTL env.now with
    | (fs1, .ok entry) => (fs1, some entry)
    | (fs1, .err _) => (fs1, none)

/-- Steps 5-7 of `AnalyzeWithCache` (progress_test.go concatenation, app.go
lines 233-267): run `Download`; on any error fall back to the loaded cache
when present and otherwise fail with that error; on success build the new
`CacheEntry` (fresh timestamp, new validators, `Checksum` left at its zero
value for `SaveCache` to fill) and save it, ignoring save failures. -/
def analyzeDownload (env : Env) (cfg : Config) (fs1 : FS)
    (cached : Option CacheEntry) : FS × AnalyzeOut :=
  match Download env.client env.ctx (contentsURL cfg.Architecture) cached with
  | (.err e, _) =>
    match cached with
    | some c => (fs1, .ok c.Stats)
    | none => (fs1, .err e)
  | (.ok stats etag lastMod, _) =>
    let entry : CacheEntry :=
      { Architecture := cfg.Architecture, Stats := stats, Timestamp := env.now,
        ETag := etag, LastModified := lastMod,
        URL := contentsURL cfg.Architecture, Checksum := "" }
    ((SaveCache env.ioEnv fs1 (cacheFilePath cfg.Architecture) entry).1, .ok stats)

/-- `AnalyzeWithCache` (app.go lines 207-268): acquire the lock (a failure is
returned as-is), load the cache unless force-refreshing, serve a record
younger than `ShortCacheWindow` directly, and otherwise download with cache
fallback and persist the result.  (`CleanupStaleLock` and `ReleaseLock` act
only on the lock marker handled by the external flock library, summarized in
`lockResult`.)  Returns the filesystem after the call and the Go result. -/
def AnalyzeWithCache (env : Env) (cfg : Config) : FS × AnalyzeOut :=
  match env.lockResult with
  | some e => (env.fs, .err e)
  | none =>
    match loadCached env cfg with
    | (fs1, some c) =>
      if 0 < cfg.ShortCacheWindow ∧ env.now - c.Timestamp < cfg.ShortCacheWindow
      then (fs1, .ok c.Stats)
      else analyzeDownload env cfg fs1 (some c)
    | (fs1, none) => analyzeDownload env cfg fs1 none

/-! ## Helper lemmas about the filesystem model -/

/-- Reading a path after removing it yields nothing. -/
theorem fsRead_remove_self (fs : FS) (p : String) :
    fsRead (fsRemove fs p) p = none := by
  induction fs with
  | nil => rfl
  | cons hd tl ih =>
    obtain ⟨q, d⟩ := hd
    by_cases h : q = p <;> simp [fsRemove, fsRead, h, ih]

/-- Reading a path right after writing it yields the written content. -/
theorem fsRead_write_self (fs : FS) (p : String) (d : FileData) :
    fsRead (fsWrite fs p d) p = some d := by
  simp [fsWrite, fsRead]

/-- When the rename loop reports success, the filesystem holds the record at
the target path and the temporary file is gone. -/
theorem renameAttempts_ok (env : IOEnv) (fsW : FS) (tmp file : String)
    (d : FileData) (fuel i : Nat)
    (h : (renameAttempts env fsW tmp file d fuel i).2 = none) :
    (renameAttempts env fsW tmp file d fuel i).1 =
      fsWrite (fsRemove fsW tmp) file d := by
  induction fuel generalizing i with
  | zero => simp [renameAttempts] at h
  | succ n ih =>
    by_cases hc : i < env.renameFailCount
    · simp only [renameAttempts, if_pos hc] at h ⊢
      exact ih _ h
    · simp [renameAttempts, if_neg hc]

/-! ## Claims about the persistent cache store -/

/-- Fixture: a well-formed cache record used by concrete witnesses. -/
def entryFix : CacheEntry := ⟨"amd64", [⟨"pkg1", 10⟩], 3, "V1", "M1", "u", ""⟩

/-- **C4.** For every file whose content cannot be parsed as a valid cache
record, `LoadCache` deletes the file and raises the corrupt-cache error, and a
second load of the same path then yields the not-found error rather than the
corrupt-cache error again. -/
theorem load_corrupt_deletes_then_notfound (fs : FS) (file : String)
    (ttl now : Int) (raw : String)
    (hread : fsRead fs file = some (.invalid raw)) :
    LoadCache fs file ttl now = (fsRemove fs file, .err .corrupt) ∧
    LoadCache (fsRemove fs file) file ttl now =
      (fsRemove fs file, .err .notFound) := by
  constructor
  · simp [LoadCache, hread]
  · simp [LoadCache, fsRead_remove_self]

/-- Witness for C4 on a concrete corrupt file. -/
theorem load_corrupt_deletes_then_notfound_witness :
    LoadCache [("p", .invalid "invalid json")] "p" 10 0 =
      (fsRemove [("p", .invalid "invalid json")] "p", .err .corrupt) ∧
    LoadCache (fsRemove [("p", .invalid "invalid json")] "p") "p" 10 0 =
      (fsRemove [("p", .invalid "invalid json")] "p", .err .notFound) :=
  load_corrupt_deletes_then_notfound [("p", .invalid "invalid json")] "p" 10 0
    "invalid json" (by decide)

/-- **C5.** For every validly serialized cache record whose capture timestamp
is older than the given TTL (`now - Timestamp > ttl`), `LoadCache` raises the
expired-cache error, does not return the record, and leaves the filesystem
(hence the file's bytes) unchanged. -/
theorem load_expired_keeps_file (fs : FS) (file : String) (ttl now : Int)
    (e : CacheEntry) (hread : fsRead fs file = some (.valid e))
    (hold : now - e.Timestamp > ttl) :
    LoadCache fs file ttl now = (fs, .err .expired) := by
  simp [LoadCache, hread, hold]

/-- Witness for C5: a record captured at 3 loaded at time 50 with TTL 10. -/
theorem load_expired_keeps_file_witness :
    LoadCache [("p", .valid entryFix)] "p" 10 50 =
      ([("p", .valid entryFix)], .err .expired) :=
  load_expired_keeps_file [("p", .valid entryFix)] "p" 10 50 entryFix
    (by decide) (by decide)

/-- **C6.** Saving a record with `SaveCache` (under any I/O environment in
which the save succeeds) and immediately loading the same path with a
sufficiently large TTL succeeds and returns a record field-for-field equal to
the record as saved, including the checksum computed during the save. -/
theorem save_load_roundtrip (env : IOEnv) (fs : FS) (file : String)
    (entry : CacheEntry) (ttl now : Int)
    (hsave : (SaveCache env fs file entry).2.2 = none)
    (httl : now - entry.Timestamp ≤ ttl) :
    LoadCache (SaveCache env fs file entry).1 file ttl now =
      ((SaveCache env fs file entry).1,
        .ok (SaveCache env fs file entry).2.1) := by
  obtain ⟨cf, wf, rfc⟩ := env
  cases cf
  · cases wf
    · simp only [SaveCache, Bool.false_eq_true, if_false] at hsave ⊢
      rw [renameAttempts_ok _ _ _ _ _ _ _ hsave]
      simp only [LoadCache, fsRead_write_self]
      have : ¬(now - ({ entry with
          Checksum := md5Hex (marshalStats entry.Stats) } : CacheEntry).Timestamp > ttl) := by
        simpa using httl
      rw [if_neg this]
    · simp [SaveCache] at hsave
  · simp [SaveCache] at hsave

/-- Witness for C6 on a concrete record and a clean I/O environment. -/
theorem save_load_roundtrip_witness :
    LoadCache (SaveCache ⟨false, false, 0⟩ [] "c.json" entryFix).1 "c.json" 10 5 =
      ((SaveCache ⟨false, false, 0⟩ [] "c.json" entryFix).1,
        .ok (SaveCache ⟨false, false, 0⟩ [] "c.json" entryFix).2.1) :=
  save_load_roundtrip ⟨false, false, 0⟩ [] "c.json" entryFix 10 5
    (by decide) (by decide)

/-- Fixture for the C9 counterexample: a stored record with empty `items` and
non-zero capture timestamp. -/
def entryEmptyStats : CacheEntry := ⟨"amd64", [], 5, "", "", "", ""⟩

/-- **C9 counterexample.** The claim "every cache record accepted by load has
non-empty items whenever its capture timestamp is non-zero" is false: a stored
record with empty `Stats` and `Timestamp = 5` passes `LoadCache` unchanged
(the code performs no such validation on the parsed record). -/
theorem load_empty_items_counterexample :
    LoadCache [("p", .valid entryEmptyStats)] "p" 100 5 =
      ([("p", .valid entryEmptyStats)], .ok entryEmptyStats) ∧
    entryEmptyStats.Stats = [] ∧ entryEmptyStats.Timestamp ≠ 0 := by
  refine ⟨by decide, rfl, by decide⟩

/-- **C9 amended.** `LoadCache` returns exactly the record stored in the file,
without modifying it or enforcing any invariant on it; consequently a loaded
record satisfies the items/capturedAt invariant only when the stored record
already does. -/
theorem load_returns_stored_record (fs fs' : FS) (file : String)
    (ttl now : Int) (e : CacheEntry)
    (h : LoadCache fs file ttl now = (fs', .ok e)) :
    fsRead fs file = some (.valid e) ∧ fs' = fs := by
  unfold LoadCache at h
  cases hr : fsRead fs file with
  | none => rw [hr] at h; exact absurd h (by simp)
  | some d =>
    cases d with
    | invalid raw => rw [hr] at h; exact absurd h (by simp)
    | valid entry =>
      rw [hr] at h
      dsimp only at h
      by_cases hex : now - entry.Timestamp > ttl
      · rw [if_pos hex] at h; exact absurd h (by simp)
      · rw [if_neg hex] at h
        have h1 : fs = fs' := congrArg Prod.fst h
        have h2 : LoadResult.ok entry = LoadResult.ok e := congrArg Prod.snd h
        injection h2 with h3
        subst h3
        exact ⟨rfl, h1.symm⟩

/-- Witness for the amended C9 on a concrete successful load. -/
theorem load_returns_stored_record_witness :
    fsRead [("p", .valid entryFix)] "p" = some (.valid entryFix) ∧
    ([("p", .valid entryFix)] : FS) = [("p", .valid entryFix)] :=
  load_returns_stored_record [("p", .valid entryFix)] [("p", .valid entryFix)]
    "p" 10 5 entryFix (by decide)

/-- **C10.** For every cache entry (whose `Stats` field always serializes
successfully in Go, `json.Marshal` being total on `[]PackageStats`),
`SaveCache` overwrites the entry's `Checksum` field in the caller's record
with the hex MD5 digest of the serialized `Stats` and modifies no other field,
under every I/O environment — so the mutation happens before any file I/O and
persists when the save fails; in particular a create failure leaves the
filesystem untouched while the entry is already mutated. -/
theorem save_checksum_frame (env : IOEnv) (fs : FS) (file : String)
    (entry : CacheEntry) :
    (SaveCache env fs file entry).2.1 =
      { entry with Checksum := md5Hex (marshalStats entry.Stats) } ∧
    (env.createFails = true →
      (SaveCache env fs file entry).1 = fs ∧
      (SaveCache env fs file entry).2.2 = some .create) := by
  obtain ⟨cf, wf, rfc⟩ := env
  cases cf <;> cases wf <;> simp [SaveCache]

/-- Witness for C10: a create failure mutates the checksum but not the
filesystem. -/
theorem save_checksum_frame_witness :
    (SaveCache ⟨true, false, 0⟩ [] "c.json" entryFix).2.1 =
      { entryFix with Checksum := md5Hex (marshalStats entryFix.Stats) } ∧
    (SaveCache ⟨true, false, 0⟩ [] "c.json" entryFix).1 = [] ∧
    (SaveCache ⟨true, false, 0⟩ [] "c.json" entryFix).2.2 = some .create :=
  ⟨(save_checksum_frame ⟨true, false, 0⟩ [] "c.json" entryFix).1,
    (save_checksum_frame ⟨true, false, 0⟩ [] "c.json" entryFix).2 rfl⟩

/-! ## Claims about the line parser and aggregation finalizer -/

/-- **C7 counterexample.** The claim that `SortMap` breaks count ties by
insertion order (a stable sort) is false: the Go map built by inserting
`"a"` then `"b"` (both with count 1) may present the iteration order
`[("b",1),("a",1)]` — Go randomizes map iteration order — and `SortMap` then
returns the tied entries as `[{b,1},{a,1}]`, not in insertion order; the two
admissible iteration orders of the same map produce different outputs, so no
tie-breaking by insertion order is possible. -/
theorem sortmap_tie_order_counterexample :
    List.Perm [("a", (1 : Int)), ("b", (1 : Int))] [("b", (1 : Int)), ("a", (1 : Int))] ∧
    SortMap [("b", 1), ("a", 1)] = [⟨"b", 1⟩, ⟨"a", 1⟩] ∧
    SortMap [("a", 1), ("b", 1)] = [⟨"a", 1⟩, ⟨"b", 1⟩] ∧
    ([⟨"b", 1⟩, ⟨"a", 1⟩] : List PackageStats) ≠ [⟨"a", 1⟩, ⟨"b", 1⟩] :=
  ⟨List.Perm.swap ("b", 1) ("a", 1) [], by decide, by decide, by decide⟩

/-- **C7 amended.** For every iteration order of the aggregation map,
`SortMap` produces a permutation of the map's entries sorted by count
descending; the relative order of equal counts is unspecified (Go randomizes
map iteration order and `sort.Slice` is not stable).  In particular the
aggregation `{low:5, high:50}` sorts to `[{high,50},{low,5}]` under both of
its iteration orders. -/
theorem sortmap_sorted_desc :
    (∀ m : List (String × Int), List.Sorted statsGE (SortMap m) ∧
      List.Perm (SortMap m) (m.map fun kv => ⟨kv.1, kv.2⟩)) ∧
    SortMap [("low", 5), ("high", 50)] = [⟨"high", 50⟩, ⟨"low", 5⟩] ∧
    SortMap [("high", 50), ("low", 5)] = [⟨"high", 50⟩, ⟨"low", 5⟩] :=
  ⟨fun m => ⟨List.sorted_insertionSort statsGE _, List.perm_insertionSort statsGE _⟩,
    by decide, by decide⟩

/-- A non-space head survives `trimRight`: the result starts with it. -/
theorem trimRight_head (c : Char) (cs : List Char) (h : isSpaceChar c = false) :
    ∃ r, trimRight (c :: cs) = c :: r := by
  cases htr : trimRight cs with
  | nil => exact ⟨[], by simp [trimRight, htr, h]⟩
  | cons a as => exact ⟨a :: as, by simp [trimRight, htr]⟩

/-- `trimRight` distributes over a cons whose tail trims to something
non-empty. -/
theorem trimRight_cons_of_ne_nil (c : Char) (cs : List Char)
    (h : trimRight cs ≠ []) : trimRight (c :: cs) = c :: trimRight cs := by
  cases htr : trimRight cs with
  | nil => exact absurd htr h
  | cons a as => simp [trimRight, htr]

/-- A list headed by a non-space character trims to something non-empty. -/
theorem trimRight_ne_nil_of_head (c : Char) (cs : List Char)
    (h : isSpaceChar c = false) : trimRight (c :: cs) ≠ [] := by
  obtain ⟨r, hr⟩ := trimRight_head c cs h
  simp [hr]

/-- Membership in the right trim implies membership in the original list. -/
theorem mem_of_mem_trimRight {c : Char} {l : List Char}
    (h : c ∈ trimRight l) : c ∈ l := by
  induction l with
  | nil => simp [trimRight] at h
  | cons a as ih =>
    cases htr : trimRight as with
    | nil =>
      simp only [trimRight, htr] at h
      by_cases hsp : isSpaceChar a
      · simp [hsp] at h
      · rw [if_neg (by simpa using hsp)] at h
        simp only [List.mem_singleton] at h
        simp [h]
    | cons b bs =>
      simp only [trimRight, htr] at h
      rcases List.mem_cons.mp h with h1 | h1
      · simp [h1]
      · exact List.mem_cons_of_mem _ (ih (htr ▸ h1))

/-- Membership in the left trim implies membership in the original list. -/
theorem mem_of_mem_trimLeft {c : Char} {l : List Char}
    (h : c ∈ trimLeft l) : c ∈ l := by
  induction l with
  | nil => simp [trimLeft] at h
  | cons a as ih =>
    by_cases hsp : isSpaceChar a
    · rw [trimLeft, List.dropWhile_cons_of_pos (by simpa using hsp)] at h
      exact List.mem_cons_of_mem _ (ih h)
    · rw [trimLeft, List.dropWhile_cons_of_neg (by simpa using hsp)] at h
      exact h

/-- Trimming never introduces characters. -/
theorem mem_of_mem_trimSpace {c : Char} {l : List Char}
    (h : c ∈ trimSpace l) : c ∈ l :=
  mem_of_mem_trimLeft (mem_of_mem_trimRight h)

/-- A line starting with the header token "FILE" is ignored by `ProcessLine`:
trimming keeps the non-space prefix, so the header check fires. -/
theorem processLine_FILE (rest : List Char) (m : AggMap) :
    ProcessLine (String.mk ('F' :: 'I' :: 'L' :: 'E' :: rest)) m = m := by
  obtain ⟨r, hr⟩ := trimRight_head 'E' rest (by decide)
  have hE : trimRight ('E' :: rest) ≠ [] := by simp [hr]
  have hL : trimRight ('L' :: 'E' :: rest) ≠ [] := by
    rw [trimRight_cons_of_ne_nil _ _ hE]; simp
  have hI : trimRight ('I' :: 'L' :: 'E' :: rest) ≠ [] := by
    rw [trimRight_cons_of_ne_nil _ _ hL]; simp
  have h1 : trimSpace ('F' :: 'I' :: 'L' :: 'E' :: rest) =
      'F' :: 'I' :: 'L' :: 'E' :: r := by
    show trimRight (trimLeft ('F' :: 'I' :: 'L' :: 'E' :: rest)) = _
    rw [trimLeft, List.dropWhile_cons_of_neg (by decide)]
    rw [trimRight_cons_of_ne_nil _ _ hI, trimRight_cons_of_ne_nil _ _ hL,
        trimRight_cons_of_ne_nil _ _ hE, hr]
  show processLineChars ('F' :: 'I' :: 'L' :: 'E' :: rest) m = m
  simp [processLineChars, h1, startsWithFILE]

/-- A line containing no space character is ignored by `ProcessLine`: the
separator search (`strings.Index(line, " ")`) fails on the trimmed line. -/
theorem processLine_no_space (l : List Char) (m : AggMap) (h : ' ' ∉ l) :
    ProcessLine (String.mk l) m = m := by
  show processLineChars l m = m
  by_cases h1 : ((trimSpace l).isEmpty || startsWithFILE (trimSpace l)) = true
  · simp [processLineChars, h1]
  · have hnil : (trimSpace l).dropWhile (fun c => !(c = ' ')) = [] := by
      rw [List.dropWhile_eq_nil_iff]
      intro x hx
      have hxl : x ∈ l := mem_of_mem_trimSpace hx
      have hne : x ≠ ' ' := fun he => h (he ▸ hxl)
      simpa using hne
    simp [processLineChars, h1, hnil]

/-- **C8.** `ProcessLine` on `"usr/bin/file1 pkg1,pkg2,pkg3"` and an empty
aggregation yields exactly `{pkg1:1, pkg2:1, pkg3:1}`; and for every
aggregation map, the empty line, any line starting with the reserved header
token "FILE", and any line containing no separating space leave the map
unchanged. -/
theorem processline_cases :
    ProcessLine "usr/bin/file1 pkg1,pkg2,pkg3" [] =
      [("pkg1", 1), ("pkg2", 1), ("pkg3", 1)] ∧
    (∀ m : AggMap, ProcessLine "" m = m) ∧
    (∀ (rest : List Char) (m : AggMap),
      ProcessLine (String.mk ('F' :: 'I' :: 'L' :: 'E' :: rest)) m = m) ∧
    (∀ (l : List Char) (m : AggMap), ' ' ∉ l → ProcessLine (String.mk l) m = m) :=
  ⟨by decide, fun _ => rfl, processLine_FILE, processLine_no_space⟩

/-- Witness for C8 at the no-space test line of the repository's own test
suite. -/
theorem processline_cases_witness :
    ProcessLine (String.mk "usr/bin/file1pkg1".toList) [("x", 3)] = [("x", 3)] :=
  processline_cases.2.2.2 "usr/bin/file1pkg1".toList [("x", 3)] (by decide)

/-! ## Claims about the conditional HTTP fetcher -/

/-- When every GET attempt fails at the transport level and the context is
never cancelled, the retry loop issues all its attempts and returns the last
attempt's transport error. -/
theorem getRetryAux_all_fail (client : Client) (ctx : Ctx) (es : Nat → String)
    (hget : ∀ i, client.getResp i = .fail (es i))
    (hctx : ∀ k, ctx k = false) :
    ∀ (fuel i cidx gets : Nat) (lastErr : String), 0 < fuel →
      getRetryAux client ctx i fuel cidx gets lastErr =
        (.err (.transport (es (i + fuel - 1))), gets + fuel, cidx + 2 * fuel - 1) := by
  intro fuel
  induction fuel with
  | zero => intro i cidx gets lastErr h0; exact absurd h0 (by omega)
  | succ n ih =>
    intro i cidx gets lastErr _
    cases n with
    | zero => simp [getRetryAux, hctx, hget]
    | succ k =>
      have step : getRetryAux client ctx i (k + 1 + 1) cidx gets lastErr =
          getRetryAux client ctx (i + 1) (k + 1) (cidx + 2) (gets + 1) (es i) := by
        simp [getRetryAux, hctx, hget]
      rw [step, ih (i + 1) (cidx + 2) (gets + 1) (es i) (by omega)]
      have e1 : i + 1 + (k + 1) - 1 = i + (k + 1 + 1) - 1 := by omega
      have e2 : gets + 1 + (k + 1) = gets + (k + 1 + 1) := by omega
      have e3 : cidx + 2 + (2 * (k + 1) - 1) = cidx + 2 * (k + 1 + 1) - 1 := by
        omega
      rw [e1, e2]
      have e4 : cidx + 2 + 2 * (k + 1) - 1 = cidx + 2 * (k + 1 + 1) - 1 := by
        omega
      rw [e4]

/-- `GetRequestWithRetry` under total transport failure: three GETs issued,
the third attempt's error returned. -/
theorem getRequest_all_fail (client : Client) (ctx : Ctx) (es : Nat → String)
    (hget : ∀ i, client.getResp i = .fail (es i))
    (hctx : ∀ k, ctx k = false) :
    GetRequestWithRetry client ctx 0 = (.err (.transport (es 2)), 3, 5) := by
  have h := getRetryAux_all_fail client ctx es hget hctx 3 0 0 0 "" (by omega)
  simpa [GetRequestWithRetry, MaxRetries] using h

/-- **C2.** For every prior cache record and every remote whose full-fetch
request fails at the transport level on every attempt across the entire retry
budget (`MaxRetries`), with an uncancelled context, `Download` returns the
prior record's items, ETag and LastModified without an error; and for the
same failing remote with no prior record, the invocation fails with the
fetch's error (the final attempt's transport error), having issued exactly
`MaxRetries` GET requests. -/
theorem download_transport_exhausted (client : Client) (ctx : Ctx)
    (url : String) (c : CacheEntry) (es : Nat → String)
    (hget : ∀ i, client.getResp i = .fail (es i))
    (hctx : ∀ k, ctx k = false) :
    (Download client ctx url (some c)).1 = .ok c.Stats c.ETag c.LastModified ∧
    Download client ctx url none =
      (.err (.transport (es (MaxRetries - 1))), MaxRetries) := by
  have hr : GetRequestWithRetry client ctx 0 = (.err (.transport (es 2)), 3, 5) :=
    getRequest_all_fail client ctx es hget hctx
  have hdgs : downloadGet client ctx url (some c) =
      (.ok c.Stats c.ETag c.LastModified, 3) := by
    simp [downloadGet, hr]
  have hdgn : downloadGet client ctx url none =
      (.err (.transport (es 2)), 3) := by
    simp [downloadGet, hr]
  constructor
  · cases hh : client.headResp with
    | ok h =>
      by_cases hm : h.StatusCode = 304 ∨
          (h.ETag = c.ETag ∧ h.LastModified = c.LastModified)
      · simp [Download, hh, hm]
      · simp [Download, hh, hm, hdgs]
    | fail msg => simp [Download, hh, hdgs]
  · cases hh : client.headResp with
    | ok h => simp [Download, hh, hdgn, MaxRetries]
    | fail msg => simp [Download, hh, hdgn, MaxRetries]

/-- Fixture for the C2 witness: a cached record and a client whose transport
always fails. -/
def entryFallback : CacheEntry := ⟨"amd64", [⟨"fallback-pkg", 75⟩], 0, "E1", "M1", "", ""⟩

/-- Fixture client whose HEAD and every GET fail at the transport level. -/
def clientAllFail : Client := ⟨.fail "head down", fun _ => .fail "conn refused"⟩

/-- Witness for C2 at a concrete always-failing transport. -/
theorem download_transport_exhausted_witness :
    (Download clientAllFail (fun _ => false) "u" (some entryFallback)).1 =
      .ok entryFallback.Stats entryFallback.ETag entryFallback.LastModified ∧
    Download clientAllFail (fun _ => false) "u" none =
      (.err (.transport "conn refused"), MaxRetries) :=
  download_transport_exhausted clientAllFail (fun _ => false) "u" entryFallback
    (fun _ => "conn refused") (fun _ => rfl) (fun _ => rfl)

/-- **C3.** For every prior cache record with validator `V1` and modification
time `M1`, if the freshness probe (HEAD) succeeds and either reports status
Not Modified (304) or returns a validator and modification time both equal to
`V1` and `M1`, then `Download` returns the prior record's items together with
`V1` and `M1`, and issues no full GET request. -/
theorem download_probe_match_no_get (client : Client) (ctx : Ctx)
    (url : String) (c : CacheEntry) (h : Response)
    (hhead : client.headResp = .ok h)
    (hmatch : h.StatusCode = 304 ∨
      (h.ETag = c.ETag ∧ h.LastModified = c.LastModified)) :
    Download client ctx url (some c) = (.ok c.Stats c.ETag c.LastModified, 0) := by
  simp only [Download, hhead]
  rw [if_pos hmatch]

/-- Fixture for the C3 witness: a probe response matching the cached
validators. -/
def respProbeMatch : Response := ⟨200, "V1", "M1", [], true, false⟩

/-- Fixture client answering the probe with matching validators; any GET
would be a transport error (and must not be issued). -/
def clientProbeMatch : Client := ⟨.ok respProbeMatch, fun _ => .fail "no get"⟩

/-- Witness for C3 at a concrete matching probe. -/
theorem download_probe_match_no_get_witness :
    Download clientProbeMatch (fun _ => false) "u" (some entryFix) =
      (.ok entryFix.Stats entryFix.ETag entryFix.LastModified, 0) :=
  download_probe_match_no_get clientProbeMatch (fun _ => false) "u" entryFix
    respProbeMatch rfl (Or.inr ⟨rfl, rfl⟩)

/-! ## Claims about the cache orchestrator -/

/-- **C1 amended.** The error surface of `AnalyzeWithCache`: a lock
acquisition failure always terminates the invocation with that error; when
the lock is acquired and a cache record was loaded, the invocation never
terminates without a result (every failure of the fetch, including
RemoteNotFound, RemoteHTTPError and Cancelled, is absorbed, as is a save
failure); when the lock is acquired and no cache record was loaded, the
invocation fails exactly when `Download` fails, with the same error (the
errors of `Download` being transport exhaustion, Cancelled, RemoteNotFound,
RemoteHTTPError, 304-without-cache, and the body errors). -/
theorem analyze_error_surface (env : Env) (cfg : Config) :
    (∀ e, env.lockResult = some e → AnalyzeWithCache env cfg = (env.fs, .err e)) ∧
    (env.lockResult = none →
      ∀ c, (loadCached env cfg).2 = some c →
        ∃ stats, (AnalyzeWithCache env cfg).2 = .ok stats) ∧
    (env.lockResult = none → (loadCached env cfg).2 = none →
      ∀ e, ((AnalyzeWithCache env cfg).2 = .err e ↔
        (Download env.client env.ctx (contentsURL cfg.Architecture) none).1 =
          .err e)) := by
  refine ⟨?_, ?_, ?_⟩
  · intro e he
    simp [AnalyzeWithCache, he]
  · intro h0 c hc
    rcases hlc : loadCached env cfg with ⟨fs1, oc⟩
    rw [hlc] at hc
    simp only at hc
    subst hc
    simp only [AnalyzeWithCache, h0, hlc]
    by_cases hw : 0 < cfg.ShortCacheWindow ∧
        env.now - c.Timestamp < cfg.ShortCacheWindow
    · rw [if_pos hw]
      exact ⟨c.Stats, rfl⟩
    · rw [if_neg hw]
      rcases hd : Download env.client env.ctx (contentsURL cfg.Architecture)
          (some c) with ⟨out, gets⟩
      cases out with
      | err e => exact ⟨c.Stats, by simp [analyzeDownload, hd]⟩
      | ok stats etag lastMod => exact ⟨stats, by simp [analyzeDownload, hd]⟩
  · intro h0 hnone e
    rcases hlc : loadCached env cfg with ⟨fs1, oc⟩
    rw [hlc] at hnone
    simp only at hnone
    subst hnone
    simp only [AnalyzeWithCache, h0, hlc]
    rcases hd : Download env.client env.ctx (contentsURL cfg.Architecture)
        none with ⟨out, gets⟩
    cases out with
    | err e2 => simp [analyzeDownload, hd]
    | ok stats etag lastMod => simp [analyzeDownload, hd]

/-- Fixture: a cache record loaded but older than the short trust window. -/
def entryStale : CacheEntry := ⟨"amd64", [⟨"cached-pkg", 100⟩], 0, "", "", "", ""⟩

/-- Fixture: a well-formed 404 response. -/
def resp404 : Response := ⟨404, "", "", [], true, false⟩

/-- Fixture: the probe fails at the transport level and every GET attempt
yields the 404 response. -/
def client404 : Client := ⟨.fail "head down", fun _ => .ok resp404⟩

/-- Fixture configuration: TTL 100, short trust window 1. -/
def cfg404 : Config := ⟨"amd64", 100, false, 1⟩

/-- Fixture environment at time 50 with the stale record on disk. -/
def env404 : Env :=
  ⟨none, [(cacheFilePath "amd64", .valid entryStale)], 50, client404,
    fun _ => false, ⟨false, false, 0⟩⟩

/-- **C1 counterexample.** A RemoteNotFound (HTTP 404) outcome of the fetch
does NOT terminate the invocation when a cache record was loaded: with the
stale (older than the trust window, within TTL) record loaded, the fetch
outcome is the 404 error — as `Download` on the same client without a cache
shows — yet `AnalyzeWithCache` absorbs it and returns the cached items with
no error. -/
theorem analyze_notfound_absorbed :
    (Download client404 (fun _ => false) (contentsURL "amd64") none).1 =
      .err (.notFound (contentsURL "amd64")) ∧
    (loadCached env404 cfg404).2 = some entryStale ∧
    AnalyzeWithCache env404 cfg404 =
      ([(cacheFilePath "amd64", .valid entryStale)], .ok entryStale.Stats) := by
  refine ⟨by decide, by decide, by decide⟩

/-- Witness for the amended C1: in the counterexample environment (lock
acquired, record loaded) the invocation yields a result. -/
theorem analyze_error_surface_witness :
    ∃ stats, (AnalyzeWithCache env404 cfg404).2 = .ok stats :=
  (analyze_error_surface env404 cfg404).2.1 rfl entryStale (by decide)
